import Mathlib

/-
Verification development for scripts/merge_and_filter_epg.py: a shallow
embedding of the script's pure logic, followed by theorems about it.

Modelling conventions:
  * Python datetime instants are modelled as Int seconds since the Unix epoch
    (the script compares datetimes only with a total order, and all arithmetic
    is in whole seconds; sub-second precision of datetime.now is abstracted
    away by quantifying over the window bounds / the current instant).
  * Python exceptions escaping a function are modelled with Except Unit
    (the message is irrelevant to control flow).
  * Strings are modelled over their character lists; the regular expressions
    of the script are modelled on the ASCII fragment (the feeds and all claim
    inputs are ASCII).
  * XML element payloads other than the attributes the script reads are
    abstracted into an opaque Nat payload carried through unmodified, which is
    exactly how the script treats them (it moves whole elements).
-/

def emptyStr : String := ""

/-- Python character class \s restricted to ASCII, as used by re and str.strip. -/
def isPySpace (c : Char) : Bool :=
  c = ' ' || c = '\t' || c = '\n' || c = '\r' || c = Char.ofNat 11 || c = Char.ofNat 12

/-- Python str.strip() on the ASCII fragment: drop whitespace on both ends. -/
def pyStrip (s : String) : String :=
  String.mk (((s.data.dropWhile isPySpace).reverse.dropWhile isPySpace).reverse)

def digitVal (c : Char) : Nat := c.toNat - 48

/-
Model of datetime.strptime(s, "%Y%m%d%H%M%S") as applied by parse_xmltv_time
to the 14-digit group captured by its regex.  CPython's _strptime compiles the
format to the regex
  (?P<Y>\d\d\d\d)(?P<m>1[0-2]|0[1-9]|[1-9])(?P<d>3[01]|[12]\d|0[1-9]|[1-9])
  (?P<H>2[0-3]|[0-1]\d|\d)(?P<M>[0-5]\d|\d)(?P<S>6[0-1]|[0-5]\d|\d)
matched with re.match (first match in backtracking order, alternatives tried
left to right), then raises ValueError when unconverted data remains (the
match does not consume all 14 digits) or when the matched numbers do not form
a valid datetime.  The patterns below are those alternatives, in order; the
search mirrors the backtracking of the regex engine.
-/

inductive Pat where
  | two (a b c d : Nat)
  | one (a b : Nat)

def matchPat : Pat → List Nat → Option (Nat × List Nat)
  | Pat.two a b c d, x :: y :: rest =>
    if a ≤ x ∧ x ≤ b ∧ c ≤ y ∧ y ≤ d then some (10 * x + y, rest) else none
  | Pat.two _ _ _ _, _ => none
  | Pat.one a b, x :: rest => if a ≤ x ∧ x ≤ b then some (x, rest) else none
  | Pat.one _ _, [] => none

def monthPats : List Pat := [Pat.two 1 1 0 2, Pat.two 0 0 1 9, Pat.one 1 9]

def dayPats : List Pat := [Pat.two 3 3 0 1, Pat.two 1 2 0 9, Pat.two 0 0 1 9, Pat.one 1 9]

def hourPats : List Pat := [Pat.two 2 2 0 3, Pat.two 0 1 0 9, Pat.one 0 9]

def minutePats : List Pat := [Pat.two 0 5 0 9, Pat.one 0 9]

def secondPats : List Pat := [Pat.two 6 6 0 1, Pat.two 0 5 0 9, Pat.one 0 9]

/-- Depth-first search over the field alternatives, returning the first
complete assignment in regex backtracking order together with the unconsumed
digits. -/
def dfsFields : List (List Pat) → List Nat → Option (List Nat × List Nat)
  | [], ds => some ([], ds)
  | pats :: fields, ds =>
    pats.findSome? fun p =>
      match matchPat p ds with
      | some (v, rest) =>
        match dfsFields fields rest with
        | some (vs, rest2) => some (v :: vs, rest2)
        | none => none
      | none => none

def isLeapYear (y : Nat) : Bool :=
  y % 4 = 0 && (y % 100 != 0 || y % 400 = 0)

def daysInMonth (y m : Nat) : Nat :=
  if m = 2 then (if isLeapYear y then 29 else 28)
  else if m = 4 ∨ m = 6 ∨ m = 9 ∨ m = 11 then 30
  else 31

/-- Days since 1970-01-01 of a proleptic Gregorian date with year at least 1
(the only years datetime supports). -/
def daysFromCivil (y m d : Nat) : Int :=
  let yy := if m ≤ 2 then y - 1 else y
  let era := yy / 400
  let yoe := yy % 400
  let mp := (m + 9) % 12
  let doy := (153 * mp + 2) / 5 + d - 1
  let doe := yoe * 365 + yoe / 4 - yoe / 100 + doy
  (era : Int) * 146097 + (doe : Int) - 719468

/-- UTC instant (seconds since the Unix epoch) of a civil date-time. -/
def utcSeconds (y m d h mi s : Nat) : Int :=
  daysFromCivil y m d * 86400 + ((h * 3600 + mi * 60 + s : Nat) : Int)

/-- Smallest instant representable by datetime (0001-01-01T00:00:00). -/
def minDatetimeSec : Int := utcSeconds 1 1 1 0 0 0

/-- Largest instant representable by datetime (9999-12-31T23:59:59). -/
def maxDatetimeSec : Int := utcSeconds 9999 12 31 23 59 59

def inDatetimeRange (t : Int) : Bool :=
  minDatetimeSec ≤ t && t ≤ maxDatetimeSec

/-- datetime.strptime of the 14 digit values: regex backtracking, the
unconverted-data check, then datetime construction (which validates the
calendar date and rejects leap seconds). Except.error models ValueError. -/
def strptime14 (ds : List Nat) : Except Unit (Nat × Nat × Nat × Nat × Nat × Nat) :=
  match ds with
  | y1 :: y2 :: y3 :: y4 :: rest =>
    let y := ((y1 * 10 + y2) * 10 + y3) * 10 + y4
    match dfsFields [monthPats, dayPats, hourPats, minutePats, secondPats] rest with
    | some (m :: d :: h :: mi :: s :: [], leftover) =>
      if leftover = [] then
        if 1 ≤ y ∧ y ≤ 9999 ∧ 1 ≤ m ∧ m ≤ 12 ∧ 1 ≤ d ∧ d ≤ daysInMonth y m
            ∧ h ≤ 23 ∧ mi ≤ 59 ∧ s ≤ 59 then
          Except.ok (y, m, d, h, mi, s)
        else Except.error ()
      else Except.error ()
    | _ => Except.error ()
  | _ => Except.error ()

/-- The optional timezone suffix of parse_xmltv_time's regex,
(?:\s*([+\-]\d{4}|Z))? , matched after the 14 digits.  none models group 2
being absent (the optional group not participating). -/
inductive TzSpec where
  | utcZ
  | offset (isPlus : Bool) (h mi : Nat)

def matchTz (cs : List Char) : Option TzSpec :=
  match cs.dropWhile isPySpace with
  | '+' :: a :: b :: c :: d :: _ =>
    if a.isDigit && b.isDigit && c.isDigit && d.isDigit then
      some (TzSpec.offset true (10 * digitVal a + digitVal b) (10 * digitVal c + digitVal d))
    else none
  | '-' :: a :: b :: c :: d :: _ =>
    if a.isDigit && b.isDigit && c.isDigit && d.isDigit then
      some (TzSpec.offset false (10 * digitVal a + digitVal b) (10 * digitVal c + digitVal d))
    else none
  | 'Z' :: _ => some TzSpec.utcZ
  | _ => none

/-- Signed offset in seconds of a +HHMM / -HHMM timezone suffix. -/
def tzOffsetSeconds (isPlus : Bool) (h mi : Nat) : Int :=
  (if isPlus then (1 : Int) else -1) * (((h * 60 + mi) * 60 : Nat) : Int)

/-
parse_xmltv_time(ts) of the script, on the character list of ts:

    if not ts: return None
    m = re.match(r"(\d{14})(?:\s*([+\-]\d{4}|Z))?", ts)
    if not m: return None
    base = datetime.strptime(m.group(1), "%Y%m%d%H%M%S")
    tz = m.group(2)
    if tz and tz != "Z":
        sign = 1 if tz[0] == "+" else -1
        hours = int(tz[1:3]); mins = int(tz[3:5])
        offset = timezone(sign * timedelta(hours=hours, minutes=mins))
        return base.replace(tzinfo=offset).astimezone(timezone.utc)
    return base.replace(tzinfo=timezone.utc)

re.match anchors only at the start, so trailing characters after the matched
prefix are ignored.  strptime may raise ValueError (modelled by strptime14),
timezone() raises ValueError unless the offset is strictly between -24h and
+24h, and astimezone raises OverflowError when the converted instant falls
outside datetime's range; all of these escape parse_xmltv_time uncaught and
are modelled as Except.error.
-/
def parseChars (cs : List Char) : Except Unit (Option Int) :=
  if cs = [] then Except.ok none
  else
    if (cs.take 14).length = 14 ∧ (cs.take 14).all Char.isDigit = true then
      match strptime14 ((cs.take 14).map digitVal) with
      | Except.error _ => Except.error ()
      | Except.ok (y, m, d, h, mi, s) =>
        match matchTz (cs.drop 14) with
        | some (TzSpec.offset isPlus oh omi) =>
          if oh * 60 + omi < 24 * 60 then
            if inDatetimeRange (utcSeconds y m d h mi s - tzOffsetSeconds isPlus oh omi) = true then
              Except.ok (some (utcSeconds y m d h mi s - tzOffsetSeconds isPlus oh omi))
            else Except.error ()
          else Except.error ()
        | _ => Except.ok (some (utcSeconds y m d h mi s))
    else Except.ok none

def parse_xmltv_time (ts : String) : Except Unit (Option Int) :=
  parseChars ts.data

/-
intersects_window(start_dt, stop_dt, win_start, win_end) of the script.
datetime objects are always truthy, so "not start_dt" tests for None.
-/
def intersects_window (start_dt stop_dt : Option Int) (win_start win_end : Int) : Bool :=
  match start_dt, stop_dt with
  | none, none => true
  | none, some stop => win_start ≤ stop
  | some start, none => start ≤ win_end
  | some start, some stop => start ≤ win_end && win_start ≤ stop

/- ---------------- Data model of the XML documents ---------------- -/

/-- A channel element: its id attribute (none when absent) and an opaque
payload standing for all its other attributes and children, carried through
unmodified when the element is appended to the output tree. -/
structure Channel where
  id : Option String
  payload : Nat

/-- A programme element: the attributes and title text the script reads, plus
an opaque payload for everything else. -/
structure Programme where
  channel : Option String
  start : Option String
  stop : Option String
  title : Option String
  payload : Nat

/-- A parsed source document: its direct channel children and programme
children, each in document order (root.findall preserves order). -/
structure XmlDoc where
  channels : List Channel
  programmes : List Programme

/-- ch.get("id") or "" -/
def chanId (ch : Channel) : String := ch.id.getD emptyStr

abbrev ProgKey := String × String × String × String

/-- key = (ch_id, start_s, stop_s, title_text) with
ch_id = pr.get("channel") or "", start_s = pr.get("start") or "",
stop_s = pr.get("stop") or "", title_text = (pr.findtext("title") or "").strip().
Raw strings, not parsed instants. -/
def progKey (pr : Programme) : ProgKey :=
  (pr.channel.getD emptyStr, pr.start.getD emptyStr, pr.stop.getD emptyStr,
    pyStrip (pr.title.getD emptyStr))

/-- The accumulating state of main's merge loop: the channel and programme
elements appended to tv_root (in append order) and the two seen-sets. -/
structure MergeState where
  out_channels : List Channel
  out_programmes : List Programme
  channel_ids_seen : List String
  programme_keys_seen : List ProgKey

def initState : MergeState := ⟨[], [], [], []⟩

/-- One iteration of the channel loop (lines 135-139). -/
def processChannel (st : MergeState) (ch : Channel) : MergeState :=
  if chanId ch ≠ emptyStr ∧ chanId ch ∉ st.channel_ids_seen then
    { st with out_channels := st.out_channels ++ [ch],
              channel_ids_seen := chanId ch :: st.channel_ids_seen }
  else st

def processChans : MergeState → List Channel → MergeState
  | st, [] => st
  | st, ch :: rest => processChans (processChannel st ch) rest

/-- One iteration of the programme loop (lines 141-159).  Both timestamps are
parsed before the window test; a ValueError escaping parse_xmltv_time crashes
the whole run (Except.error). -/
def processProgramme (ws we : Int) (st : MergeState) (pr : Programme) :
    Except Unit MergeState :=
  match parse_xmltv_time (pr.start.getD emptyStr),
        parse_xmltv_time (pr.stop.getD emptyStr) with
  | Except.error _, _ => Except.error ()
  | _, Except.error _ => Except.error ()
  | Except.ok start_dt, Except.ok stop_dt =>
    if intersects_window start_dt stop_dt ws we then
      if progKey pr ∈ st.programme_keys_seen then Except.ok st
      else
        Except.ok { st with out_programmes := st.out_programmes ++ [pr],
                            programme_keys_seen := progKey pr :: st.programme_keys_seen }
    else Except.ok st

def processProgs (ws we : Int) : MergeState → List Programme → Except Unit MergeState
  | st, [] => Except.ok st
  | st, pr :: rest =>
    match processProgramme ws we st pr with
    | Except.error e => Except.error e
    | Except.ok st2 => processProgs ws we st2 rest

/-- One successfully fetched source document: all its channels, then all its
programmes (the two loops of main). -/
def processDoc (ws we : Int) (st : MergeState) (doc : XmlDoc) : Except Unit MergeState :=
  processProgs ws we (processChans st doc.channels) doc.programmes

/-- The per-source loop of main (lines 125-159): a failed fetch is logged and
skipped, a successful one is merged. -/
def processFetches (ws we : Int) (st : MergeState) :
    List (Except Unit XmlDoc) → Except Unit MergeState
  | [] => Except.ok st
  | Except.error _ :: rest => processFetches ws we st rest
  | Except.ok doc :: rest =>
    match processDoc ws we st doc with
    | Except.error e => Except.error e
    | Except.ok st2 => processFetches ws we st2 rest

/-- sources_ok: number of fetches that succeeded. -/
def countOk : List (Except Unit XmlDoc) → Nat
  | [] => 0
  | Except.ok _ :: rest => countOk rest + 1
  | Except.error _ :: rest => countOk rest

abbrev Bytes := List Nat

/-- Outcome of a run: fallbackCopied b means the previous artifact (bytes b)
was copied byte-for-byte to the output path and the process exited 0;
fatalNoPrev means exit 1 with no output written; success means the merged
document was serialized and written, exit 0. -/
inductive RunOutcome where
  | fallbackCopied (b : Bytes)
  | fatalNoPrev
  | success (channels : List Channel) (programmes : List Programme)

def exitCode : RunOutcome → Nat
  | RunOutcome.fallbackCopied _ => 0
  | RunOutcome.fatalNoPrev => 1
  | RunOutcome.success _ _ => 0

/-- Stand-in for gzip(serialize(tv_root)): an opaque deterministic encoding of
the retained elements.  No claim depends on the concrete bytes of a fresh
serialization, only on which document is written. -/
def serializeTv (chs : List Channel) (prs : List Programme) : Bytes :=
  chs.map (fun ch => ch.payload) ++ [0] ++ prs.map (fun pr => pr.payload)

/-- Bytes found at the output path after the run, if any. -/
def outputArtifact : RunOutcome → Option Bytes
  | RunOutcome.fallbackCopied b => some b
  | RunOutcome.fatalNoPrev => none
  | RunOutcome.success chs prs => some (serializeTv chs prs)

/-- fallback_to_previous() (lines 103-112), with prev = the bytes of
dist/epg.xml.gz when it exists.  shutil.copyfile copies byte-for-byte. -/
def fallback_to_previous (prev : Option Bytes) : RunOutcome :=
  match prev with
  | some b => RunOutcome.fallbackCopied b
  | none => RunOutcome.fatalNoPrev

def KEEP_PAST_DAYS : Nat := 2

def KEEP_FUTURE_DAYS : Nat := 7

/-- win_start = now - timedelta(days=KEEP_PAST_DAYS). -/
def winStart (now : Int) : Int := now - (KEEP_PAST_DAYS : Int) * 86400

/-- win_end = now + timedelta(days=KEEP_FUTURE_DAYS). -/
def winEnd (now : Int) : Int := now + (KEEP_FUTURE_DAYS : Int) * 86400

/-- main() (lines 115-169) given the current instant, the bytes of the
previous-good artifact when it exists, and the per-source fetch outcomes. -/
def runMain (now : Int) (prev : Option Bytes) (fetches : List (Except Unit XmlDoc)) :
    Except Unit RunOutcome :=
  match processFetches (winStart now) (winEnd now) initState fetches with
  | Except.error e => Except.error e
  | Except.ok st =>
    if countOk fetches = 0 ∨ (st.channel_ids_seen = [] ∧ st.programme_keys_seen = []) then
      Except.ok (fallback_to_previous prev)
    else
      Except.ok (RunOutcome.success st.out_channels st.out_programmes)

/- ---------------- Fetcher (fetch_xml, lines 84-100) ---------------- -/

/-
fetch_xml(url, retries=3): attempts is an oracle giving the outcome of the
k-th attempt (the whole try-block: GET, status check, decompression, parse).
The loop records a sleep of 2*attempt seconds after every failed attempt,
then raises the last error once attempts are exhausted.  The result pairs the
outcome with the list of sleep durations in order.
-/
def fetchGo {E D : Type} (attempts : Nat → Except E D) :
    Nat → Nat → Option E → List Nat → Except (Option E) D × List Nat
  | _, 0, last, sleeps => (Except.error last, sleeps)
  | k, r + 1, _, sleeps =>
    match attempts k with
    | Except.ok d => (Except.ok d, sleeps)
    | Except.error e => fetchGo attempts (k + 1) r (some e) (sleeps ++ [2 * k])

def fetch_xml {E D : Type} (attempts : Nat → Except E D) (retries : Nat) :
    Except (Option E) D × List Nat :=
  fetchGo attempts 1 retries none []

/- ---------------- Writer (lines 165-167) ---------------- -/

/-
with gzip.open(OUTPUT_NAME, "wb") as f: tree.write(f)
gzip.open with mode "wb" creates/truncates the file at the output path at
open time and the document is then streamed into it.  The observable contents
of the output path therefore pass through three states: the old contents (or
absence), an incomplete (initially empty) file after the truncating open, and
the complete artifact after the write finishes.
-/
def writerTrace (old : Option Bytes) (artifact : Bytes) : List (Option Bytes) :=
  [old, some [], some artifact]

/-- An atomic write never exposes anything but the old contents or the
complete new artifact at the output path. -/
def AtomicWrite (old : Option Bytes) (artifact : Bytes) (tr : List (Option Bytes)) : Prop :=
  ∀ s ∈ tr, s = old ∨ s = some artifact

/- ---------------- Reference (spec-side) merge functions ---------------- -/

/-- Channel retention as the spec words it: walk the channel records in
first-seen order, keep one iff its id is non-empty and not already seen. -/
def specChannels (seen : List String) : List Channel → List Channel
  | [] => []
  | ch :: rest =>
    if chanId ch ≠ emptyStr ∧ chanId ch ∉ seen then
      ch :: specChannels (chanId ch :: seen) rest
    else specChannels seen rest

def specChanSeen (seen : List String) : List Channel → List String
  | [] => seen
  | ch :: rest =>
    if chanId ch ≠ emptyStr ∧ chanId ch ∉ seen then
      specChanSeen (chanId ch :: seen) rest
    else specChanSeen seen rest

/-- The window test a programme record is subjected to, with the parse errors
it can raise. -/
def passesWindow (ws we : Int) (pr : Programme) : Except Unit Bool :=
  match parse_xmltv_time (pr.start.getD emptyStr),
        parse_xmltv_time (pr.stop.getD emptyStr) with
  | Except.error _, _ => Except.error ()
  | _, Except.error _ => Except.error ()
  | Except.ok s, Except.ok e => Except.ok (intersects_window s e ws we)

/-- Programme retention as the spec words it: walk the records in first-seen
order; a record is kept iff it passes the window test and its dedup key is
not already seen; only kept records consume their key. -/
def specProgs (ws we : Int) (seen : List ProgKey) :
    List Programme → Except Unit (List Programme × List ProgKey)
  | [] => Except.ok ([], seen)
  | pr :: rest =>
    match passesWindow ws we pr with
    | Except.error e => Except.error e
    | Except.ok pass =>
      if pass = true ∧ progKey pr ∉ seen then
        match specProgs ws we (progKey pr :: seen) rest with
        | Except.error e => Except.error e
        | Except.ok (out, seen2) => Except.ok (pr :: out, seen2)
      else
        match specProgs ws we seen rest with
        | Except.error e => Except.error e
        | Except.ok (out, seen2) => Except.ok (out, seen2)

/-- All channel records of the successfully fetched documents, in source-list
and within-document order. -/
def chanStream : List (Except Unit XmlDoc) → List Channel
  | [] => []
  | Except.ok doc :: rest => doc.channels ++ chanStream rest
  | Except.error _ :: rest => chanStream rest

/-- All programme records of the successfully fetched documents, in
source-list and within-document order. -/
def progStream : List (Except Unit XmlDoc) → List Programme
  | [] => []
  | Except.ok doc :: rest => doc.programmes ++ progStream rest
  | Except.error _ :: rest => progStream rest

/- ---------------- Concrete sample inputs used by witnesses ---------------- -/

def tsNoTz : String := "20240101120000"

def tsPlus0200 : String := "20240101120000+0200"

def tsZulu : String := "20240101120000Z"

def tsBadOffset : String := "20240101120000+9900"

def tsBadDate : String := "20241301120000"

def tsTrailing : String := "20240101120000abc"

def tsNotADate : String := "not-a-date"

def offPlus0200 : String := "+0200"

def titleSpaced : String := " A "

def titlePlain : String := "A"

def sampleProg1 : Programme := ⟨none, none, none, some titleSpaced, 0⟩

def sampleProg2 : Programme := ⟨none, none, none, some titlePlain, 1⟩

def badProgX : Programme := ⟨none, some tsNoTz, some tsPlus0200, none, 3⟩

def sampleFetches : List (Except Unit XmlDoc) :=
  [Except.ok ⟨[], [sampleProg1, badProgX, sampleProg2]⟩]

def stProgs : MergeState := ⟨[], [sampleProg1], [], [progKey sampleProg1]⟩

def chanIdX1 : String := "X1"

def chanA : Channel := ⟨some chanIdX1, 1⟩

def chanB : Channel := ⟨some chanIdX1, 2⟩

def sampleFetchesChan : List (Except Unit XmlDoc) :=
  [Except.ok ⟨[chanA], []⟩, Except.ok ⟨[chanB], []⟩]

def stChan : MergeState := ⟨[chanA], [], [chanIdX1], []⟩

def sampleProgNoChan : Programme := ⟨none, none, none, some titlePlain, 5⟩

def fIndepA : List (Except Unit XmlDoc) := [Except.ok ⟨[], [sampleProgNoChan]⟩]

def fIndepB : List (Except Unit XmlDoc) := [Except.ok ⟨[chanA], [sampleProgNoChan]⟩]

def stIndepA : MergeState := ⟨[], [sampleProgNoChan], [], [progKey sampleProgNoChan]⟩

def stIndepB : MergeState := ⟨[chanA], [sampleProgNoChan], [chanIdX1], [progKey sampleProgNoChan]⟩

def prevBytesSample : Bytes := [1, 2, 3]

def attSample : Nat → Except Nat Nat := fun k => if k = 1 then Except.error 7 else Except.ok 42

/- ---------------- Invariant lemmas about the merge loop ---------------- -/

theorem processChans_eq (chs : List Channel) : ∀ st : MergeState,
    processChans st chs =
      { out_channels := st.out_channels ++ specChannels st.channel_ids_seen chs,
        out_programmes := st.out_programmes,
        channel_ids_seen := specChanSeen st.channel_ids_seen chs,
        programme_keys_seen := st.programme_keys_seen } := by
  induction chs with
  | nil =>
    intro st
    simp [processChans, specChannels, specChanSeen]
  | cons ch rest ih =>
    intro st
    simp only [processChans, processChannel, specChannels, specChanSeen]
    by_cases h : chanId ch ≠ emptyStr ∧ chanId ch ∉ st.channel_ids_seen
    · rw [if_pos h, if_pos h, if_pos h, ih]
      simp
    · rw [if_neg h, if_neg h, if_neg h, ih]

theorem processProgs_eq (ws we : Int) (prs : List Programme) : ∀ st : MergeState,
    processProgs ws we st prs =
      match specProgs ws we st.programme_keys_seen prs with
      | Except.error e => Except.error e
      | Except.ok (out, seen2) =>
        Except.ok { out_channels := st.out_channels,
                    out_programmes := st.out_programmes ++ out,
                    channel_ids_seen := st.channel_ids_seen,
                    programme_keys_seen := seen2 } := by
  induction prs with
  | nil =>
    intro st
    simp [processProgs, specProgs]
  | cons pr rest ih =>
    intro st
    simp only [processProgs, processProgramme, specProgs, passesWindow]
    cases hs : parse_xmltv_time (pr.start.getD emptyStr) with
    | error e => simp
    | ok sdt =>
      cases he : parse_xmltv_time (pr.stop.getD emptyStr) with
      | error e => simp
      | ok edt =>
        simp only
        by_cases hw : intersects_window sdt edt ws we = true
        · by_cases hk : progKey pr ∈ st.programme_keys_seen
          · rw [if_pos hw, if_pos hk,
              if_neg (by simp [hk] : ¬ (intersects_window sdt edt ws we = true ∧ progKey pr ∉ st.programme_keys_seen))]
            simp only [ih]
            cases hrec : specProgs ws we st.programme_keys_seen rest with
            | error e => simp
            | ok p =>
              obtain ⟨out, seen2⟩ := p
              simp
          · rw [if_pos hw, if_neg hk, if_pos ⟨hw, hk⟩]
            simp only [ih]
            cases hrec : specProgs ws we (progKey pr :: st.programme_keys_seen) rest with
            | error e => simp
            | ok p =>
              obtain ⟨out, seen2⟩ := p
              simp
        · rw [if_neg hw,
            if_neg (by simp [hw] : ¬ (intersects_window sdt edt ws we = true ∧ progKey pr ∉ st.programme_keys_seen))]
          simp only [ih]
          cases hrec : specProgs ws we st.programme_keys_seen rest with
          | error e => simp
          | ok p =>
            obtain ⟨out, seen2⟩ := p
            simp

theorem specChanSeen_append (xs ys : List Channel) : ∀ seen : List String,
    specChanSeen seen (xs ++ ys) = specChanSeen (specChanSeen seen xs) ys := by
  induction xs with
  | nil => intro seen; simp [specChanSeen]
  | cons ch rest ih =>
    intro seen
    simp only [List.cons_append, List.append_eq, specChanSeen]
    by_cases h : chanId ch ≠ emptyStr ∧ chanId ch ∉ seen
    · rw [if_pos h, if_pos h, ih]
    · rw [if_neg h, if_neg h, ih]

theorem specChannels_append (xs ys : List Channel) : ∀ seen : List String,
    specChannels seen (xs ++ ys) =
      specChannels seen xs ++ specChannels (specChanSeen seen xs) ys := by
  induction xs with
  | nil => intro seen; simp [specChannels, specChanSeen]
  | cons ch rest ih =>
    intro seen
    simp only [List.cons_append, List.append_eq, specChannels, specChanSeen]
    by_cases h : chanId ch ≠ emptyStr ∧ chanId ch ∉ seen
    · rw [if_pos h, if_pos h, if_pos h, ih]
      simp
    · rw [if_neg h, if_neg h, if_neg h, ih]

theorem specProgs_append (ws we : Int) (xs ys : List Programme) : ∀ seen : List ProgKey,
    specProgs ws we seen (xs ++ ys) =
      match specProgs ws we seen xs with
      | Except.error e => Except.error e
      | Except.ok (out1, s1) =>
        match specProgs ws we s1 ys with
        | Except.error e => Except.error e
        | Except.ok (out2, s2) => Except.ok (out1 ++ out2, s2) := by
  induction xs with
  | nil =>
    intro seen
    simp only [List.nil_append, specProgs]
    cases h : specProgs ws we seen ys with
    | error e => simp
    | ok p =>
      obtain ⟨out2, s2⟩ := p
      simp
  | cons pr rest ih =>
    intro seen
    simp only [List.cons_append, List.append_eq, specProgs]
    cases hw : passesWindow ws we pr with
    | error e => simp
    | ok pass =>
      simp only
      by_cases hc : pass = true ∧ progKey pr ∉ seen
      · rw [if_pos hc, if_pos hc, ih]
        cases h1 : specProgs ws we (progKey pr :: seen) rest with
        | error e => simp
        | ok p =>
          obtain ⟨o1, s1⟩ := p
          cases h2 : specProgs ws we s1 ys with
          | error e => simp [h2]
          | ok q =>
            obtain ⟨o2, s2⟩ := q
            simp [h2]
      · rw [if_neg hc, if_neg hc, ih]
        cases h1 : specProgs ws we seen rest with
        | error e => simp
        | ok p =>
          obtain ⟨o1, s1⟩ := p
          cases h2 : specProgs ws we s1 ys with
          | error e => simp [h2]
          | ok q =>
            obtain ⟨o2, s2⟩ := q
            simp [h2]

theorem processFetches_eq (ws we : Int) (fetches : List (Except Unit XmlDoc)) :
    ∀ st : MergeState,
      processFetches ws we st fetches =
        match specProgs ws we st.programme_keys_seen (progStream fetches) with
        | Except.error e => Except.error e
        | Except.ok (out, seen2) =>
          Except.ok
            { out_channels := st.out_channels ++ specChannels st.channel_ids_seen (chanStream fetches),
              out_programmes := st.out_programmes ++ out,
              channel_ids_seen := specChanSeen st.channel_ids_seen (chanStream fetches),
              programme_keys_seen := seen2 } := by
  induction fetches with
  | nil =>
    intro st
    simp [processFetches, progStream, chanStream, specProgs, specChannels, specChanSeen]
  | cons f rest ih =>
    intro st
    cases f with
    | error e =>
      simp only [processFetches, progStream, chanStream]
      exact ih st
    | ok doc =>
      simp only [processFetches, processDoc, progStream, chanStream]
      rw [processChans_eq, processProgs_eq]
      rw [specProgs_append]
      cases h1 : specProgs ws we st.programme_keys_seen doc.programmes with
      | error e => simp
      | ok p =>
        obtain ⟨o1, s1⟩ := p
        simp only [ih]
        cases h2 : specProgs ws we s1 (progStream rest) with
        | error e => simp
        | ok q =>
          obtain ⟨o2, s2⟩ := q
          simp [specChannels_append, specChanSeen_append, List.append_assoc]

/-- Extracting the spec-level description of a completed merge run started
from the empty state. -/
theorem processFetches_ok_components (ws we : Int) (fetches : List (Except Unit XmlDoc))
    (st : MergeState) (h : processFetches ws we initState fetches = Except.ok st) :
    specProgs ws we [] (progStream fetches) = Except.ok (st.out_programmes, st.programme_keys_seen)
      ∧ st.out_channels = specChannels [] (chanStream fetches)
      ∧ st.channel_ids_seen = specChanSeen [] (chanStream fetches) := by
  have h2 := processFetches_eq ws we fetches initState
  rw [h] at h2
  simp only [initState] at h2
  cases hsp : specProgs ws we [] (progStream fetches) with
  | error e =>
    rw [hsp] at h2
    cases h2
  | ok p =>
    obtain ⟨out, seen2⟩ := p
    rw [hsp] at h2
    simp only [List.nil_append] at h2
    cases h2
    simp

theorem specChanSeen_length (chs : List Channel) : ∀ seen : List String,
    (specChanSeen seen chs).length = (specChannels seen chs).length + seen.length := by
  induction chs with
  | nil => intro seen; simp [specChanSeen, specChannels]
  | cons ch rest ih =>
    intro seen
    simp only [specChanSeen, specChannels]
    by_cases h : chanId ch ≠ emptyStr ∧ chanId ch ∉ seen
    · rw [if_pos h, if_pos h, ih]
      simp
      omega
    · rw [if_neg h, if_neg h, ih]

theorem specProgs_length (ws we : Int) (prs : List Programme) :
    ∀ (seen : List ProgKey) (out : List Programme) (seen2 : List ProgKey),
      specProgs ws we seen prs = Except.ok (out, seen2) →
      seen2.length = out.length + seen.length := by
  induction prs with
  | nil =>
    intro seen out seen2 h
    simp only [specProgs] at h
    cases h
    simp
  | cons pr rest ih =>
    intro seen out seen2 h
    simp only [specProgs] at h
    cases hw : passesWindow ws we pr with
    | error e => rw [hw] at h; cases h
    | ok pass =>
      rw [hw] at h
      simp only at h
      by_cases hc : pass = true ∧ progKey pr ∉ seen
      · rw [if_pos hc] at h
        cases h1 : specProgs ws we (progKey pr :: seen) rest with
        | error e => rw [h1] at h; cases h
        | ok p =>
          obtain ⟨o1, s1⟩ := p
          rw [h1] at h
          injection h with h3
          injection h3 with ha hb
          subst ha
          subst hb
          have h4 := ih (progKey pr :: seen) o1 s1 h1
          simp only [List.length_cons] at h4 ⊢
          omega
      · rw [if_neg hc] at h
        cases h1 : specProgs ws we seen rest with
        | error e => rw [h1] at h; cases h
        | ok p =>
          obtain ⟨o1, s1⟩ := p
          rw [h1] at h
          injection h with h3
          injection h3 with ha hb
          subst ha
          subst hb
          exact ih seen o1 s1 h1

theorem specChannels_id_nonempty (chs : List Channel) : ∀ (seen : List String) (ch : Channel),
    ch ∈ specChannels seen chs → chanId ch ≠ emptyStr := by
  induction chs with
  | nil => intro seen ch h; simp [specChannels] at h
  | cons c rest ih =>
    intro seen ch h
    simp only [specChannels] at h
    by_cases hc : chanId c ≠ emptyStr ∧ chanId c ∉ seen
    · rw [if_pos hc] at h
      cases h with
      | head => exact hc.1
      | tail _ h2 => exact ih _ ch h2
    · rw [if_neg hc] at h
      exact ih _ ch h

/-- Inserting a failed fetch anywhere in the source list changes neither the
merge state evolution nor any later processing. -/
theorem processFetches_skip (ws we : Int) (f1 f2 : List (Except Unit XmlDoc)) (e : Unit) :
    ∀ st : MergeState,
      processFetches ws we st (f1 ++ Except.error e :: f2) =
        processFetches ws we st (f1 ++ f2) := by
  induction f1 with
  | nil => intro st; simp [processFetches]
  | cons f rest ih =>
    intro st
    cases f with
    | error e2 => simp only [List.cons_append, processFetches]; exact ih st
    | ok doc =>
      simp only [List.cons_append, processFetches]
      cases processDoc ws we st doc with
      | error e2 => rfl
      | ok st2 => exact ih st2

theorem countOk_skip (f1 f2 : List (Except Unit XmlDoc)) (e : Unit) :
    countOk (f1 ++ Except.error e :: f2) = countOk (f1 ++ f2) := by
  induction f1 with
  | nil => simp [countOk]
  | cons f rest ih =>
    cases f with
    | error e2 => simp only [List.cons_append, countOk]; exact ih
    | ok doc => simp only [List.cons_append, List.append_eq, countOk]; rw [ih]

theorem fetchGo_zero {E D : Type} (att : Nat → Except E D) (k : Nat) (last : Option E)
    (sl : List Nat) : fetchGo att k 0 last sl = (Except.error last, sl) := rfl

theorem fetchGo_step {E D : Type} (att : Nat → Except E D) (k r : Nat) (last : Option E)
    (sl : List Nat) :
    fetchGo att k (r + 1) last sl =
      match att k with
      | Except.ok d => (Except.ok d, sl)
      | Except.error e => fetchGo att (k + 1) r (some e) (sl ++ [2 * k]) := rfl

/- ---------------- Claim theorems ---------------- -/

/-- Claim C1: among all programme records sharing one dedup key
(channel attribute, raw start string, raw stop string, trimmed title), only
the first record in source-list and within-document order that passes the
window test is appended to the unified document; every later record with an
equal key is discarded, and records failing the window test never consume a
dedup key.  Formally: the programmes appended by a completed merge run, and
its final key set, are exactly those computed by specProgs, the reference
first-passing-record-per-key filter over the concatenated programme stream. -/
theorem c1_programme_dedup (ws we : Int) (fetches : List (Except Unit XmlDoc))
    (st : MergeState) (h : processFetches ws we initState fetches = Except.ok st) :
    specProgs ws we [] (progStream fetches) =
      Except.ok (st.out_programmes, st.programme_keys_seen) :=
  (processFetches_ok_components ws we fetches st h).1

theorem c1_witness :
    specProgs 0 100 [] (progStream sampleFetches) =
      Except.ok ([sampleProg1], [progKey sampleProg1]) :=
  c1_programme_dedup 0 100 sampleFetches stProgs rfl

/-- Claim C2: the intersection test keeps a programme unconditionally when
both parsed timestamps are absent; keeps it iff start is at most win_end when
only start parses; iff stop is at least win_start when only stop parses; and
iff both bounds hold when both parse; and a programme failing the test is
discarded by the merge loop (the state is unchanged). -/
theorem c2_window_test (ws we : Int) :
    intersects_window none none ws we = true
    ∧ (∀ s : Int, intersects_window (some s) none ws we = true ↔ s ≤ we)
    ∧ (∀ e : Int, intersects_window none (some e) ws we = true ↔ ws ≤ e)
    ∧ (∀ s e : Int, intersects_window (some s) (some e) ws we = true ↔ (s ≤ we ∧ ws ≤ e))
    ∧ (∀ (st : MergeState) (pr : Programme),
        passesWindow ws we pr = Except.ok false →
        processProgramme ws we st pr = Except.ok st) := by
  refine ⟨rfl, ?_, ?_, ?_, ?_⟩
  · intro s; simp [intersects_window]
  · intro e; simp [intersects_window]
  · intro s e; simp [intersects_window]
  · intro st pr h
    simp only [passesWindow] at h
    simp only [processProgramme]
    cases hs : parse_xmltv_time (pr.start.getD emptyStr) with
    | error e => rw [hs] at h; simp at h
    | ok sdt =>
      cases he : parse_xmltv_time (pr.stop.getD emptyStr) with
      | error e => rw [hs, he] at h; simp at h
      | ok edt =>
        rw [hs, he] at h
        injection h with h2
        simp [h2]

theorem c2_witness :
    intersects_window (some 5) (some 200) 0 100 = true
    ∧ processProgramme 0 100 initState badProgX = Except.ok initState := by
  constructor
  · exact ((c2_window_test 0 100).2.2.2.1 5 200).mpr (by constructor <;> decide)
  · exact (c2_window_test 0 100).2.2.2.2 initState badProgX rfl

/-- Claim C3: the fallback path is taken exactly when sources_ok = 0 or both
seen-sets are empty; in that case, with a previous-good artifact the run
exits 0 and the output is a byte-for-byte copy of it, and without one the run
exits 1 and writes no output.  The last two equivalences justify reading the
code's seen-set emptiness test as "no channels retained and no programmes
retained". -/
theorem c3_fallback (now : Int) (prev : Option Bytes) (fetches : List (Except Unit XmlDoc))
    (st : MergeState)
    (h : processFetches (winStart now) (winEnd now) initState fetches = Except.ok st) :
    (runMain now prev fetches = Except.ok (fallback_to_previous prev)
        ↔ (countOk fetches = 0 ∨ (st.channel_ids_seen = [] ∧ st.programme_keys_seen = [])))
    ∧ ((countOk fetches = 0 ∨ (st.channel_ids_seen = [] ∧ st.programme_keys_seen = [])) →
        (∀ b : Bytes, prev = some b →
          runMain now prev fetches = Except.ok (RunOutcome.fallbackCopied b)
          ∧ exitCode (RunOutcome.fallbackCopied b) = 0
          ∧ outputArtifact (RunOutcome.fallbackCopied b) = some b)
        ∧ (prev = none →
          runMain now prev fetches = Except.ok RunOutcome.fatalNoPrev
          ∧ exitCode RunOutcome.fatalNoPrev = 1
          ∧ outputArtifact RunOutcome.fatalNoPrev = none))
    ∧ (st.out_channels = [] ↔ st.channel_ids_seen = [])
    ∧ (st.out_programmes = [] ↔ st.programme_keys_seen = []) := by
  have hco := processFetches_ok_components (winStart now) (winEnd now) fetches st h
  have hchan : st.channel_ids_seen.length = st.out_channels.length := by
    rw [hco.2.2, specChanSeen_length, ← hco.2.1]
    simp
  have hprog : st.programme_keys_seen.length = st.out_programmes.length := by
    have h4 := specProgs_length (winStart now) (winEnd now) (progStream fetches) []
      st.out_programmes st.programme_keys_seen hco.1
    simpa using h4
  have hrm : runMain now prev fetches =
      (if countOk fetches = 0 ∨ (st.channel_ids_seen = [] ∧ st.programme_keys_seen = []) then
        Except.ok (fallback_to_previous prev)
      else Except.ok (RunOutcome.success st.out_channels st.out_programmes)) := by
    simp only [runMain]
    rw [h]
  refine ⟨?_, ?_, ?_, ?_⟩
  · constructor
    · intro hf
      by_cases hc : countOk fetches = 0 ∨ (st.channel_ids_seen = [] ∧ st.programme_keys_seen = [])
      · exact hc
      · rw [hrm, if_neg hc] at hf
        exfalso
        cases prev with
        | none => simp [fallback_to_previous] at hf
        | some b => simp [fallback_to_previous] at hf
    · intro hc
      rw [hrm, if_pos hc]
  · intro hc
    constructor
    · intro b hb
      subst hb
      rw [hrm, if_pos hc]
      exact ⟨rfl, rfl, rfl⟩
    · intro hb
      subst hb
      rw [hrm, if_pos hc]
      exact ⟨rfl, rfl, rfl⟩
  · rw [← List.length_eq_zero, ← List.length_eq_zero, hchan]
  · rw [← List.length_eq_zero, ← List.length_eq_zero, hprog]

theorem c3_witness :
    (runMain 0 (some prevBytesSample) [] = Except.ok (fallback_to_previous (some prevBytesSample))
        ↔ (countOk [] = 0 ∨ (initState.channel_ids_seen = [] ∧ initState.programme_keys_seen = [])))
    ∧ ((countOk [] = 0 ∨ (initState.channel_ids_seen = [] ∧ initState.programme_keys_seen = [])) →
        (∀ b : Bytes, (some prevBytesSample : Option Bytes) = some b →
          runMain 0 (some prevBytesSample) [] = Except.ok (RunOutcome.fallbackCopied b)
          ∧ exitCode (RunOutcome.fallbackCopied b) = 0
          ∧ outputArtifact (RunOutcome.fallbackCopied b) = some b)
        ∧ ((some prevBytesSample : Option Bytes) = none →
          runMain 0 (some prevBytesSample) [] = Except.ok RunOutcome.fatalNoPrev
          ∧ exitCode RunOutcome.fatalNoPrev = 1
          ∧ outputArtifact RunOutcome.fatalNoPrev = none))
    ∧ (initState.out_channels = [] ↔ initState.channel_ids_seen = [])
    ∧ (initState.out_programmes = [] ↔ initState.programme_keys_seen = []) :=
  c3_fallback 0 (some prevBytesSample) [] initState rfl

/-- Claim C4 (refuting its totality statement on the code): the parser is not
total.  A 14-digit prefix with an out-of-range UTC offset makes timezone()
raise ValueError, and 14 digits that do not form a valid calendar date make
strptime raise ValueError; both escape parse_xmltv_time (modelled by
Except.error), crashing the run, where the claim says a null result is
returned.  Also, a string with trailing characters beyond the grammar is
accepted (re.match anchors only at the start), where the claim says every
string not matching the grammar yields null. -/
theorem c4_parser_raises :
    parse_xmltv_time tsBadOffset = Except.error ()
    ∧ parse_xmltv_time tsBadDate = Except.error ()
    ∧ parse_xmltv_time tsTrailing = Except.ok (some (utcSeconds 2024 1 1 12 0 0))
    ∧ parse_xmltv_time tsNotADate = Except.ok none
    ∧ parse_xmltv_time emptyStr = Except.ok none :=
  ⟨rfl, rfl, rfl, rfl, rfl⟩

/-- Claim C5: a channel record is added iff its id attribute is non-empty and
not previously seen; among records sharing one id the first encountered is
retained with its payload (metadata) unmodified and later ones are discarded.
Formally: the channels appended by a completed merge run are exactly
specChannels, the reference first-record-per-nonempty-id filter over the
concatenated channel stream, and every retained channel has a non-empty id. -/
theorem c5_channel_dedup (ws we : Int) (fetches : List (Except Unit XmlDoc))
    (st : MergeState) (h : processFetches ws we initState fetches = Except.ok st) :
    st.out_channels = specChannels [] (chanStream fetches)
    ∧ st.channel_ids_seen = specChanSeen [] (chanStream fetches)
    ∧ ∀ ch ∈ st.out_channels, chanId ch ≠ emptyStr := by
  have hco := processFetches_ok_components ws we fetches st h
  refine ⟨hco.2.1, hco.2.2, ?_⟩
  intro ch hch
  rw [hco.2.1] at hch
  exact specChannels_id_nonempty _ _ ch hch

theorem c5_witness :
    stChan.out_channels = specChannels [] (chanStream sampleFetchesChan)
    ∧ stChan.channel_ids_seen = specChanSeen [] (chanStream sampleFetchesChan)
    ∧ ∀ ch ∈ stChan.out_channels, chanId ch ≠ emptyStr :=
  c5_channel_dedup 0 100 sampleFetchesChan stChan rfl

/-- Claim C6: the parser reads the 14 digits as UTC when no offset or Z
follows and, when a signed 4-digit offset follows, reads them as local time
and subtracts the offset; concretely the spec's four examples evaluate as
stated.  The last conjunct is the general offset law: appending any suffix
that the timezone group parses as a valid offset to any 14-digit string that
parses to instant t makes the parser return t minus the offset. -/
theorem c6_parser_semantics :
    parse_xmltv_time tsNoTz = Except.ok (some (utcSeconds 2024 1 1 12 0 0))
    ∧ parse_xmltv_time tsPlus0200 = Except.ok (some (utcSeconds 2024 1 1 10 0 0))
    ∧ parse_xmltv_time tsZulu = Except.ok (some (utcSeconds 2024 1 1 12 0 0))
    ∧ parse_xmltv_time emptyStr = Except.ok none
    ∧ parse_xmltv_time tsNotADate = Except.ok none
    ∧ (∀ (ds rest : List Char) (t : Int) (isPlus : Bool) (oh omi : Nat),
        ds.length = 14 →
        parseChars ds = Except.ok (some t) →
        matchTz rest = some (TzSpec.offset isPlus oh omi) →
        oh * 60 + omi < 24 * 60 →
        inDatetimeRange (t - tzOffsetSeconds isPlus oh omi) = true →
        parseChars (ds ++ rest) = Except.ok (some (t - tzOffsetSeconds isPlus oh omi))) := by
  refine ⟨rfl, rfl, rfl, rfl, rfl, ?_⟩
  intro ds rest t isPlus oh omi hlen hok htz hoff hinr
  have hne : ds ≠ [] := by
    intro hh
    rw [hh] at hlen
    simp at hlen
  have hne2 : ds ++ rest ≠ [] := by
    intro hh
    exact hne (List.append_eq_nil.mp hh).1
  have htake : ds.take 14 = ds := by
    rw [← hlen]
    exact List.take_length ds
  have hdrop : ds.drop 14 = [] := by
    rw [← hlen]
    exact List.drop_length ds
  have htake2 : (ds ++ rest).take 14 = ds := by
    rw [← hlen]
    exact List.take_left ds rest
  have hdrop2 : (ds ++ rest).drop 14 = rest := by
    rw [← hlen]
    exact List.drop_left ds rest
  simp only [parseChars, if_neg hne, htake, hdrop] at hok
  simp only [parseChars, if_neg hne2, htake2, hdrop2]
  by_cases hd : ds.all Char.isDigit = true
  · rw [if_pos ⟨hlen, hd⟩] at hok
    rw [if_pos ⟨hlen, hd⟩]
    cases hst : strptime14 (ds.map digitVal) with
    | error e => rw [hst] at hok; simp at hok
    | ok v =>
      obtain ⟨y, m, d, hh, mii, s⟩ := v
      rw [hst] at hok
      rw [show matchTz ([] : List Char) = none from rfl] at hok
      simp at hok
      rw [htz]
      simp [hoff, hok, hinr]
  · rw [if_neg (fun hc => hd hc.2)] at hok
    simp at hok

theorem c6_witness :
    parseChars (tsNoTz.data ++ offPlus0200.data) =
      Except.ok (some (utcSeconds 2024 1 1 12 0 0 - tzOffsetSeconds true 2 0)) :=
  c6_parser_semantics.2.2.2.2.2 tsNoTz.data offPlus0200.data
    (utcSeconds 2024 1 1 12 0 0) true 2 0 rfl rfl rfl (by decide) rfl

/-- Claim C7 counterexample: with three failing attempts the fetch loop
sleeps three times, [2, 4, 6] — once after every failed attempt, including
after the final attempt just before the error propagates.  Three attempts
have only two gaps between them, so the claim that it sleeps only between
attempts (at most attempts minus one sleeps) is false. -/
theorem c7_counterexample :
    (fetch_xml (fun _ => (Except.error 0 : Except Nat Unit)) 3).2 = [2, 4, 6]
    ∧ ¬ ((fetch_xml (fun _ => (Except.error 0 : Except Nat Unit)) 3).2.length ≤ 3 - 1) :=
  ⟨rfl, by decide⟩

/-- Claim C7 (amended): the fetcher makes at most 3 attempts; when attempt k
is the first success it returns the document having slept 2, 4, ...,
2 * (k - 1) seconds; when all 3 attempts fail it sleeps 2, 4 and 6 seconds --
the last sleep after the final attempt, not between attempts -- and then
propagates the last observed error; and the caller never aborts the run on a
failed source: inserting a failed fetch anywhere in the source list leaves
the whole run outcome unchanged. -/
theorem c7_retry_behaviour {E D : Type} (att : Nat → Except E D) (e1 e2 e3 : E) (d : D)
    (now : Int) (prev : Option Bytes) (f1 f2 : List (Except Unit XmlDoc)) :
    (att 1 = Except.ok d → fetch_xml att 3 = (Except.ok d, []))
    ∧ (att 1 = Except.error e1 → att 2 = Except.ok d → fetch_xml att 3 = (Except.ok d, [2]))
    ∧ (att 1 = Except.error e1 → att 2 = Except.error e2 → att 3 = Except.ok d →
        fetch_xml att 3 = (Except.ok d, [2, 4]))
    ∧ (att 1 = Except.error e1 → att 2 = Except.error e2 → att 3 = Except.error e3 →
        fetch_xml att 3 = (Except.error (some e3), [2, 4, 6]))
    ∧ runMain now prev (f1 ++ Except.error () :: f2) = runMain now prev (f1 ++ f2) := by
  have hu : fetch_xml att 3 = fetchGo att 1 (2 + 1) none [] := rfl
  refine ⟨?_, ?_, ?_, ?_, ?_⟩
  · intro h1
    rw [hu, fetchGo_step, h1]
  · intro h1 h2
    rw [hu, fetchGo_step, h1]
    show fetchGo att 2 (1 + 1) (some e1) [2] = _
    rw [fetchGo_step, h2]
  · intro h1 h2 h3
    rw [hu, fetchGo_step, h1]
    show fetchGo att 2 (1 + 1) (some e1) [2] = _
    rw [fetchGo_step, h2]
    show fetchGo att 3 (0 + 1) (some e2) [2, 4] = _
    rw [fetchGo_step, h3]
  · intro h1 h2 h3
    rw [hu, fetchGo_step, h1]
    show fetchGo att 2 (1 + 1) (some e1) [2] = _
    rw [fetchGo_step, h2]
    show fetchGo att 3 (0 + 1) (some e2) [2, 4] = _
    rw [fetchGo_step, h3]
    show fetchGo att 4 0 (some e3) [2, 4, 6] = _
    rw [fetchGo_zero]
  · simp only [runMain, processFetches_skip, countOk_skip]

theorem c7_witness :
    fetch_xml attSample 3 = (Except.ok 42, [2])
    ∧ runMain 0 none ([] ++ Except.error () :: []) = runMain 0 none ([] ++ []) := by
  have h := c7_retry_behaviour attSample 7 7 7 42 0 none [] []
  exact ⟨h.2.1 rfl rfl, h.2.2.2.2⟩

/-- Claim C8 counterexample: the writer is not atomic.  Opening the output
path for writing truncates it, so during the write the path holds an
incomplete (empty) file that is neither the old contents nor the complete
artifact. -/
theorem c8_counterexample :
    ¬ AtomicWrite none [7] (writerTrace none [7]) := by
  intro h
  rcases h (some []) (by simp [writerTrace]) with h1 | h1
  · simp at h1
  · simp at h1

/-- Claim C8 (amended): the writer streams the complete document into the
output path in one go and on completion the path holds the complete
artifact, but the write is not atomic: the truncating open exposes an
incomplete (empty) file at the output path while the write is in progress. -/
theorem c8_write_not_atomic (old : Option Bytes) (a : Bytes) :
    (writerTrace old a).getLast? = some (some a)
    ∧ some ([] : Bytes) ∈ writerTrace old a
    ∧ (a ≠ [] → old ≠ some [] → ¬ AtomicWrite old a (writerTrace old a)) := by
  refine ⟨rfl, by simp [writerTrace], ?_⟩
  intro ha hold hat
  rcases hat (some []) (by simp [writerTrace]) with h1 | h1
  · exact hold h1.symm
  · apply ha
    injection h1 with h2
    exact h2.symm

theorem c8_witness :
    (writerTrace none [5]).getLast? = some (some ([5] : Bytes))
    ∧ ¬ AtomicWrite none [5] (writerTrace none [5]) := by
  have h := c8_write_not_atomic none [5]
  exact ⟨h.1, h.2.2 (by decide) (by decide)⟩

/-- Claim C9: programme retention is independent of the channel records and
of the retained channel set: two completed runs whose fetched documents carry
the same programme stream retain exactly the same programmes (in the same
order) with the same key set, whatever their channels; and a programme whose
channel attribute is absent gets the empty string as the channel component of
its dedup key. -/
theorem c9_channel_independence (ws we : Int) (f1 f2 : List (Except Unit XmlDoc))
    (st1 st2 : MergeState)
    (h1 : processFetches ws we initState f1 = Except.ok st1)
    (h2 : processFetches ws we initState f2 = Except.ok st2)
    (hp : progStream f1 = progStream f2) :
    st1.out_programmes = st2.out_programmes
    ∧ st1.programme_keys_seen = st2.programme_keys_seen
    ∧ ∀ pr : Programme, pr.channel = none → (progKey pr).1 = emptyStr := by
  have hA := (processFetches_ok_components ws we f1 st1 h1).1
  have hB := (processFetches_ok_components ws we f2 st2 h2).1
  rw [hp] at hA
  rw [hA] at hB
  injection hB with h3
  injection h3 with ha hb
  exact ⟨ha, hb, fun pr hpr => by simp [progKey, hpr]⟩

theorem c9_witness :
    stIndepA.out_programmes = stIndepB.out_programmes
    ∧ stIndepA.programme_keys_seen = stIndepB.programme_keys_seen
    ∧ ∀ pr : Programme, pr.channel = none → (progKey pr).1 = emptyStr :=
  c9_channel_independence 0 100 fIndepA fIndepB stIndepA stIndepB rfl rfl rfl

/-- Claim C10: the merge is deterministic.  Two runs given the same current
instant, the same previous-good artifact and the same sequence of per-source
fetch outcomes produce identical run results (hence identical unified
documents, element orders and exit codes); the model takes exactly these
three values as inputs and nothing else. -/
theorem c10_deterministic (now1 now2 : Int) (prev1 prev2 : Option Bytes)
    (f1 f2 : List (Except Unit XmlDoc))
    (hn : now1 = now2) (hp : prev1 = prev2) (hf : f1 = f2) :
    runMain now1 prev1 f1 = runMain now2 prev2 f2
    ∧ (runMain now1 prev1 f1).map exitCode = (runMain now2 prev2 f2).map exitCode := by
  subst hn
  subst hp
  subst hf
  exact ⟨rfl, rfl⟩

theorem c10_witness :
    runMain 0 (some prevBytesSample) sampleFetches = runMain 0 (some prevBytesSample) sampleFetches
    ∧ (runMain 0 (some prevBytesSample) sampleFetches).map exitCode =
        (runMain 0 (some prevBytesSample) sampleFetches).map exitCode :=
  c10_deterministic 0 0 (some prevBytesSample) (some prevBytesSample)
    sampleFetches sampleFetches rfl rfl rfl
